import Mathlib

/-!
Verification development for the freeschlep video frame server.

The repository is a collection of near-duplicate Express/ffmpeg servers that
decode one video frame at a time into a flat RGB pixel array.  We shallowly
embed the pieces of state-machine and buffer-handling logic that the claims
are about:

* the two inline byte-buffer-to-pixel conversion loops
  (the bounds-checked loop of the debug/quality variants, and the unchecked
  loop of the simple variant and the batch extractor),
* the debug-mode pacing controller `processNextFrame` together with the
  settlement of `processFrameWithDebug`, as an interleaved event machine,
* the simple-variant tick/stream-event machine (no completion guard),
* the quality-variant `processNextFrame` net-effect step,
* the batch extractor `extractFrames` / `processFrameBatch` with its bounded
  frame cache,
* the startup probing helpers `getVideoDuration` / `analyzeVideo`.

Bytes are modelled as `Nat` (their numeric value is irrelevant to the claims),
buffers as `List Nat`, JS out-of-range buffer reads as `Option Nat` values,
and durations as rationals.
-/

/--
Bounds-checked conversion loop of the debug and quality variants
(part_000 lines 284-294, server.js lines 470-478 and 787-795):

  for (let i = 0; i < pixelBuffer.length && i < expectedSize; i += 3)
    if (i + 2 < pixelBuffer.length)
      pixels.push([pixelBuffer[i], pixelBuffer[i+1], pixelBuffer[i+2]]);

The first argument is the remaining distance `expectedSize - i`; the loop
body pushes a triplet exactly when three bytes remain, and a trailing
iteration with fewer than three remaining bytes pushes nothing.
-/
def bufferToPixelsBounded : Nat → List Nat → List (Nat × Nat × Nat)
  | _, [] => []
  | _, [_] => []
  | _, [_, _] => []
  | expected, r :: g :: b :: rest =>
      if expected = 0 then []
      else (r, g, b) :: bufferToPixelsBounded (expected - 3) rest

/--
Unchecked conversion loop of the simple variant (server.js lines 115-118)
and of the batch extractor (part_002 lines 130-133):

  for (let i = 0; i < pixelBuffer.length; i += 3)
    pixels.push([pixelBuffer[i], pixelBuffer[i+1], pixelBuffer[i+2]]);

Reads at `i+1` and `i+2` may fall past the end of the buffer; in JS they
evaluate to `undefined`, modelled here as `none`.
-/
def bufferToPixelsRaw : List Nat → List (Nat × Option Nat × Option Nat)
  | [] => []
  | [r] => [(r, none, none)]
  | [r, g] => [(r, some g, none)]
  | r :: g :: b :: rest => (r, some g, some b) :: bufferToPixelsRaw rest

/-- Flattening a triplet list back into the byte order it was read in. -/
def tripletFlatten : List (Nat × Nat × Nat) → List Nat
  | [] => []
  | (r, g, b) :: rest => r :: g :: b :: tripletFlatten rest

/-- Lifting an in-bounds triplet to the JS-indexing shape of the raw loop. -/
def liftTriplet (t : Nat × Nat × Nat) : Nat × Option Nat × Option Nat :=
  (t.1, some t.2.1, some t.2.2)

/--
Result of an awaited decode attempt as seen by `processNextFrame`: the
promise either resolves with a pixel list or rejects (timeout, empty
buffer, stream error, ffmpeg error all reject).
-/
inductive DecodeResult
  | ok (ps : List (Nat × Nat × Nat))
  | err
deriving DecidableEq

/-- Spec-level decode outcome taxonomy, used to classify settlements. -/
inductive DecodeOutcome
  | success (ps : List (Nat × Nat × Nat))
  | emptyOutput
  | timeout
  | subprocessFailure
  | streamFailure
deriving DecidableEq

/-- The four ways a debug-variant decode attempt can settle. -/
inductive SettleCause
  | ended (buf : List Nat)
  | timedOut
  | ffmpegFailed
  | streamFailed
deriving DecidableEq

namespace Debug

/--
Settlement logic of `processFrameWithDebug` (part_000 lines 243-354,
server.js lines 427-538), as a classification of the single settlement of
each attempt (the hasCompleted flag makes later events no-ops):

* timeout fires → reject (Processing timeout),
* stream end with a 0-byte buffer → reject (Empty buffer from FFmpeg),
* stream end with bytes → resolve with the bounds-checked conversion
  (a size mismatch only logs a warning and still resolves),
* stream error / ffmpeg error → reject.
-/
def processFrameOutcome (w hgt : Nat) : SettleCause → DecodeOutcome
  | .ended buf =>
      if buf.length = 0 then .emptyOutput
      else .success (bufferToPixelsBounded (w * hgt * 3) buf)
  | .timedOut => .timeout
  | .ffmpegFailed => .subprocessFailure
  | .streamFailed => .streamFailure

end Debug

/-- Resolution vs rejection: only a success resolves the promise. -/
def DecodeOutcome.toResult : DecodeOutcome → DecodeResult
  | .success ps => .ok ps
  | _ => .err

/--
Controller state of the debug variant (part_000 lines 25-29 and 199):
cursor, error streak, published frame, the processingActive gate, and the
number of decode attempts currently in flight (implicit in the code as the
pending `processFrameWithDebug` promise).
-/
structure DebugState where
  currentFrame : Nat
  consecutiveErrors : Nat
  lastPixels : List (Nat × Nat × Nat)
  processingActive : Bool
  inFlight : Nat
deriving DecidableEq

/--
Events of the debug controller: a timer tick of the `setInterval`, the
settlement of the in-flight decode (the code after `await` in
`processNextFrame`), and the 10s cooldown timer firing.
-/
inductive DebugEvent
  | tick
  | settle (r : DecodeResult)
  | cooldown
deriving DecidableEq

namespace Debug

/-- Whether a tick in state `s` issues a decode (the guard on part_000
line 202 lets the tick proceed only when not busy and the streak is at or
below the high threshold 5). -/
def tickStarts (s : DebugState) : Bool :=
  !s.processingActive && decide (s.consecutiveErrors ≤ 5)

/--
One event of the debug controller `processNextFrame`
(part_000 lines 201-238, server.js lines 384-421):

* tick: if `processingActive || consecutiveErrors > 5` the tick is a no-op
  (while paused it additionally schedules the cooldown timer, modelled as
  the separate cooldown event); otherwise it sets the gate and starts a
  decode;
* settle: the in-flight attempt resolves or rejects; on resolution with a
  non-empty pixel list the frame is published, the streak reset and the
  cursor advanced by 1 mod totalFrames, on an empty list the streak is
  incremented and the cursor still advanced by 1, on rejection the streak
  is incremented and, above the low threshold 2, the cursor skips by
  `FPS * 2`; in every case the gate is released;
* cooldown: the 10s timer body resets the streak to 0.
-/
def step (totalFrames fps : Nat) (s : DebugState) : DebugEvent → DebugState
  | .tick =>
      if s.processingActive ∨ 5 < s.consecutiveErrors then s
      else { s with processingActive := true, inFlight := s.inFlight + 1 }
  | .settle r =>
      if s.inFlight = 0 then s
      else
        match r with
        | .ok ps =>
            if 0 < ps.length then
              { s with
                  lastPixels := ps
                  consecutiveErrors := 0
                  currentFrame := (s.currentFrame + 1) % totalFrames
                  processingActive := false
                  inFlight := s.inFlight - 1 }
            else
              { s with
                  consecutiveErrors := s.consecutiveErrors + 1
                  currentFrame := (s.currentFrame + 1) % totalFrames
                  processingActive := false
                  inFlight := s.inFlight - 1 }
        | .err =>
            if 2 < s.consecutiveErrors + 1 then
              { s with
                  consecutiveErrors := s.consecutiveErrors + 1
                  currentFrame := (s.currentFrame + fps * 2) % totalFrames
                  processingActive := false
                  inFlight := s.inFlight - 1 }
            else
              { s with
                  consecutiveErrors := s.consecutiveErrors + 1
                  processingActive := false
                  inFlight := s.inFlight - 1 }
  | .cooldown => { s with consecutiveErrors := 0 }

/-- Running the debug controller over a sequence of events. -/
def run (totalFrames fps : Nat) (s : DebugState) (evs : List DebugEvent) :
    DebugState :=
  evs.foldl (step totalFrames fps) s

/-- Startup state: cursor 0, streak 0, no published frame, gate free. -/
def init : DebugState :=
  { currentFrame := 0, consecutiveErrors := 0, lastPixels := [],
    processingActive := false, inFlight := 0 }

/-- Number of decodes issued along a run (ticks whose guard passes). -/
def startCount (totalFrames fps : Nat) (s : DebugState) :
    List DebugEvent → Nat
  | [] => 0
  | .tick :: rest =>
      (if tickStarts s then 1 else 0) +
        startCount totalFrames fps (step totalFrames fps s .tick) rest
  | ev :: rest => startCount totalFrames fps (step totalFrames fps s ev) rest

/-- The mutual-exclusion invariant: at most one decode in flight, and none
when the gate is free. -/
def gateInv (s : DebugState) : Prop :=
  s.inFlight ≤ 1 ∧ (s.processingActive = false → s.inFlight = 0)

end Debug

namespace Debug

/-- Event sequence of N consecutive completed decodes: each decode is one
tick followed by the settlement of the attempt it started, resolving with
the given pixel list. -/
def successEvents : List (List (Nat × Nat × Nat)) → List DebugEvent
  | [] => []
  | ps :: rest =>
      DebugEvent.tick :: DebugEvent.settle (DecodeResult.ok ps) ::
        successEvents rest

end Debug

/--
Controller state of the simple variant (server.js lines 21-24 and 100-137).
Each element of `attempts` is one decode started by a tick, recording
whether its ffmpeg error handler and its output-stream end handler have
fired; neither handler is guarded by a completion flag in this variant.
-/
structure SimpleState where
  currentFrame : Nat
  lastPixels : List (Nat × Option Nat × Option Nat)
  isProcessing : Bool
  attempts : List (Bool × Bool)
deriving DecidableEq

/--
Events of the simple variant: a timer tick, the ffmpeg error handler of
attempt `i` firing, and the output-stream end handler of attempt `i`
firing with the bytes that attempt accumulated.  For one attempt the
error event and the end event are distinct channels: when the subprocess
fails, fluent-ffmpeg emits the command error while the piped stream still
reaches end-of-stream, so both handlers can run for the same attempt (the
debug variant adds the hasCompleted flag precisely to suppress this).
-/
inductive SimpleEvent
  | tick
  | ffmpegErrAt (i : Nat)
  | streamEndAt (i : Nat) (buf : List Nat)
deriving DecidableEq

namespace Simple

/--
One event of the simple variant `startProcessing` (server.js lines
100-137): a tick is a no-op when `isProcessing` is set or the duration is
still 0, and otherwise sets the gate and starts a decode; the ffmpeg error
handler only clears the gate; the end handler converts whatever bytes
arrived with the unchecked loop, publishes them, advances the cursor by 1
mod totalFrames and clears the gate.  Each handler fires at most once per
attempt, enforced by the per-attempt flags.
-/
def step (totalFrames duration : Nat) (s : SimpleState) :
    SimpleEvent → SimpleState
  | .tick =>
      if s.isProcessing ∨ duration = 0 then s
      else { s with isProcessing := true,
                    attempts := s.attempts ++ [(false, false)] }
  | .ffmpegErrAt i =>
      match s.attempts.get? i with
      | none => s
      | some a =>
          if a.1 then s
          else { s with attempts := s.attempts.set i (true, a.2),
                        isProcessing := false }
  | .streamEndAt i buf =>
      match s.attempts.get? i with
      | none => s
      | some a =>
          if a.2 then s
          else { s with attempts := s.attempts.set i (a.1, true),
                        lastPixels := bufferToPixelsRaw buf,
                        currentFrame := (s.currentFrame + 1) % totalFrames,
                        isProcessing := false }

/-- Running the simple controller over a sequence of events. -/
def run (totalFrames duration : Nat) (s : SimpleState)
    (evs : List SimpleEvent) : SimpleState :=
  evs.foldl (step totalFrames duration) s

/-- Attempts whose subprocess has produced neither a completion event:
these are the decodes currently in flight. -/
def inFlight (s : SimpleState) : Nat :=
  (s.attempts.filter (fun a => !a.1 && !a.2)).length

/-- Startup state of the simple variant. -/
def init : SimpleState :=
  { currentFrame := 0, lastPixels := [], isProcessing := false, attempts := [] }

end Simple

/-- Controller state of the quality variant (server.js lines 615-619). -/
structure QualityState where
  currentFrame : Nat
  consecutiveErrors : Nat
  lastPixels : List (Nat × Nat × Nat)
  processingActive : Bool
deriving DecidableEq

namespace Quality

/--
Net effect of one completed `processNextFrame` of the quality variant
(server.js lines 704-745): the guard skips when busy or the streak exceeds
8; on resolution with a non-empty pixel list the frame is published and
the streak is lowered by 1 (floored at 0, `Math.max(0, e - 1)`), and the
cursor advances by 1 mod totalFrames whether or not pixels arrived; on
rejection the streak is incremented and, above 3, the cursor skips by
`FPS` frames.
-/
def processNextFrame (totalFrames fps : Nat) (r : DecodeResult)
    (s : QualityState) : QualityState :=
  if s.processingActive ∨ 8 < s.consecutiveErrors then s
  else
    match r with
    | .ok ps =>
        if 0 < ps.length then
          { s with
              lastPixels := ps
              consecutiveErrors := s.consecutiveErrors - 1
              currentFrame := (s.currentFrame + 1) % totalFrames }
        else
          { s with currentFrame := (s.currentFrame + 1) % totalFrames }
    | .err =>
        if 3 < s.consecutiveErrors + 1 then
          { s with
              consecutiveErrors := s.consecutiveErrors + 1
              currentFrame := (s.currentFrame + fps) % totalFrames }
        else
          { s with consecutiveErrors := s.consecutiveErrors + 1 }

end Quality

/-- Outcome of one ffprobe call as observed by `getVideoDuration`:
the callback reports metadata with a duration, the callback reports an
error, or the 10s guard timer fires first (quality variant, server.js
lines 652-671; the first variant, lines 54-69, has no timer and only the
first two cases). -/
inductive ProbeOutcome
  | ok (d : ℚ)
  | failed
  | timedOut
deriving DecidableEq

/--
`getVideoDuration` (server.js lines 54-69 and 652-671): the promise only
ever resolves — an ffprobe error and the guard timeout both resolve with
the default duration 60, and a successful probe resolves with the reported
duration.  Totality of this function is the no-throw guarantee: startup
always proceeds.
-/
def getVideoDuration : ProbeOutcome → ℚ
  | .ok d => d
  | .failed => 60
  | .timedOut => 60

/-- Outcome of the HEAD pre-check of `analyzeVideo` (part_000 lines
83-108): the URL answered 200 with a video content type, or it answered
with a bad status or non-video content type, or the request errored, or
the 15s request timeout fired. -/
inductive UrlCheck
  | okVideo
  | badStatusOrType
  | requestFailed
  | requestTimedOut
deriving DecidableEq

/--
Duration produced by one attempt of `analyzeVideo` (part_000 lines
79-121 with `runFFprobe`, lines 124-156): every failure path resolves with
duration 60, and a successful probe reports `metadata.format.duration || 60`
(a JS-falsy duration of 0 also falls back to 60).
-/
def analyzeVideoDuration : UrlCheck → ProbeOutcome → ℚ
  | .okVideo, .ok d => if d = 0 then 60 else d
  | .okVideo, .failed => 60
  | .okVideo, .timedOut => 60
  | .badStatusOrType, _ => 60
  | .requestFailed, _ => 60
  | .requestTimedOut, _ => 60

/-- `Math.floor(videoDuration * FPS)`, the total frame count (server.js
line 120 and elsewhere).  There is no clamp to a minimum of 1 anywhere in
the sources. -/
def totalFramesOf (duration : ℚ) (fps : ℕ) : ℤ :=
  ⌊duration * fps⌋

/-- A JS pixel triplet is complete when both of its possibly-undefined
components are present. -/
def completeFrame (w hgt : Nat) (f : List (Nat × Option Nat × Option Nat)) :
    Prop :=
  f.length = w * hgt ∧ ∀ t ∈ f, t.2.1.isSome = true ∧ t.2.2.isSome = true

instance (w hgt : Nat) (f : List (Nat × Option Nat × Option Nat)) :
    Decidable (completeFrame w hgt f) := by
  unfold completeFrame
  infer_instance

/-- Accumulator of `extractFrames` (part_002 lines 108-173):
`pending` is `currentFrameBuffer`, `frames` is `frameData`. -/
structure BatchAcc where
  pending : List Nat
  frames : List (List (Nat × Option Nat × Option Nat))
deriving DecidableEq

namespace Batch

/--
The while loop of the `extractFrames` data handler (part_002 lines
125-143): while a full frame of `expected` bytes has accumulated, slice
it off, convert it with the unchecked loop and push it; after a push that
reaches `count` frames the handler resolves and returns.  The loop is
only reachable with `expected = width*height*3 > 0`; the guard `0 <
expected` below makes the model total.
-/
def drainLoop (expected count : Nat) (pending : List Nat)
    (frames : List (List (Nat × Option Nat × Option Nat))) : BatchAcc :=
  if _h : 0 < expected ∧ expected ≤ pending.length then
    if count ≤ (frames ++ [bufferToPixelsRaw (pending.take expected)]).length then
      { pending := pending.drop expected
        frames := frames ++ [bufferToPixelsRaw (pending.take expected)] }
    else
      drainLoop expected count (pending.drop expected)
        (frames ++ [bufferToPixelsRaw (pending.take expected)])
  else { pending := pending, frames := frames }
  termination_by pending.length
  decreasing_by
    simp only [List.length_drop]
    omega

/-- One data event: concatenate the chunk onto the pending buffer and run
the while loop (part_002 lines 121-144). -/
def onData (expected count : Nat) (acc : BatchAcc) (chunk : List Nat) :
    BatchAcc :=
  drainLoop expected count (acc.pending ++ chunk) acc.frames

/--
`extractFrames` over a whole stream of chunks: fold the data handler from
the empty accumulator and resolve with the collected frames; any trailing
partial frame left in `pending` is discarded, never emitted (part_002
lines 108-173).
-/
def extractFrames (w hgt count : Nat) (chunks : List (List Nat)) :
    List (List (Nat × Option Nat × Option Nat)) :=
  (chunks.foldl (onData (w * hgt * 3) count) { pending := [], frames := [] }).frames

/--
`frameCache.set` followed by the size check (part_002 lines 89-97): a
JS Map `set` updates an existing key in place or appends a new entry in
insertion order, and when the size exceeds the capacity the oldest
(first-inserted) entry is deleted.
-/
def cacheSet (cache : List (Nat × List (Nat × Option Nat × Option Nat)))
    (k : Nat) (v : List (Nat × Option Nat × Option Nat)) :
    List (Nat × List (Nat × Option Nat × Option Nat)) :=
  if cache.any (fun e => e.1 = k) then
    cache.map (fun e => if e.1 = k then (k, v) else e)
  else cache ++ [(k, v)]

def cacheInsert (cap : Nat) (cache : List (Nat × List (Nat × Option Nat × Option Nat)))
    (k : Nat) (v : List (Nat × Option Nat × Option Nat)) :
    List (Nat × List (Nat × Option Nat × Option Nat)) :=
  if cap < (cacheSet cache k v).length then (cacheSet cache k v).drop 1
  else cacheSet cache k v

/-- The `frames.forEach((pixels, index) => ...)` of `processFrameBatch`
(part_002 lines 89-98): cache frame `startFrame + index` for each
extracted frame in order. -/
def insertFramesFrom (cap : Nat)
    (cache : List (Nat × List (Nat × Option Nat × Option Nat))) (start : Nat) :
    List (List (Nat × Option Nat × Option Nat)) →
      List (Nat × List (Nat × Option Nat × Option Nat))
  | [] => cache
  | f :: rest => insertFramesFrom cap (cacheInsert cap cache start f) (start + 1) rest

/-- `processFrameBatch` (part_002 lines 78-106): extract up to `count`
frames starting at `startFrame` and cache them. -/
def processFrameBatch (w hgt cap count start : Nat) (chunks : List (List Nat))
    (cache : List (Nat × List (Nat × Option Nat × Option Nat))) :
    List (Nat × List (Nat × Option Nat × Option Nat)) :=
  insertFramesFrom cap cache start (extractFrames w hgt count chunks)

end Batch

/-- The 24-byte scenario buffer of the spec (width 4, height 2). -/
def scenarioBuf : List Nat :=
  [0, 0, 0, 255, 0, 0, 0, 255, 0, 0, 0, 255,
   255, 255, 255, 128, 128, 128, 10, 20, 30, 40, 50, 60]

theorem tripletFlatten_append (l₁ l₂ : List (Nat × Nat × Nat)) :
    tripletFlatten (l₁ ++ l₂) = tripletFlatten l₁ ++ tripletFlatten l₂ := by
  induction l₁ with
  | nil => rfl
  | cons t rest ih => cases t with | mk r gb => cases gb; simp [tripletFlatten, ih]

/--
Master lemma about the bounds-checked loop: it emits the largest whole
number of triplets that fits inside `min (buf.length) expected`, and the
emitted bytes are exactly the corresponding prefix of the buffer.
-/
theorem bufferToPixelsBounded_spec (expected : Nat) (buf : List Nat)
    (hE : 3 ∣ expected) :
    (bufferToPixelsBounded expected buf).length = min buf.length expected / 3 ∧
    tripletFlatten (bufferToPixelsBounded expected buf) =
      buf.take (3 * (min buf.length expected / 3)) := by
  match buf with
  | [] => simp [bufferToPixelsBounded, tripletFlatten]
  | [r] =>
      have h1 : min 1 expected / 3 = 0 := by omega
      constructor
      · simp [bufferToPixelsBounded, h1]
      · simp [bufferToPixelsBounded, tripletFlatten, h1]
  | [r, g] =>
      have h2 : min 2 expected / 3 = 0 := by omega
      constructor
      · simp [bufferToPixelsBounded, h2]
      · simp [bufferToPixelsBounded, tripletFlatten, h2]
  | r :: g :: b :: rest =>
      by_cases h0 : expected = 0
      · subst h0
        simp [bufferToPixelsBounded, tripletFlatten]
      · have h3 : 3 ≤ expected := by
          rcases hE with ⟨k, rfl⟩
          omega
        have hE' : 3 ∣ expected - 3 := by
          rcases hE with ⟨k, rfl⟩
          exact ⟨k - 1, by omega⟩
        obtain ⟨ih₁, ih₂⟩ := bufferToPixelsBounded_spec (expected - 3) rest hE'
        have htake : ∀ (m : Nat) (l : List Nat) (a b c : Nat),
            (a :: b :: c :: l).take (m + 3) = a :: b :: c :: l.take m := by
          intro m l a b c
          rfl
        constructor
        · simp only [bufferToPixelsBounded, if_neg h0, List.length_cons, ih₁]
          omega
        · simp only [bufferToPixelsBounded, if_neg h0, tripletFlatten, ih₂,
            List.length_cons]
          have hk : 3 * (min (rest.length + 1 + 1 + 1) expected / 3) =
              3 * (min rest.length (expected - 3) / 3) + 3 := by omega
          rw [hk, htake]

/--
On a buffer holding exactly `n` whole triplets, the unchecked loop agrees
with the bounds-checked loop run with expected size `3 * n`: every read is
in bounds and the two produce the same triplets.
-/
theorem bufferToPixelsRaw_exact (n : Nat) (buf : List Nat)
    (hlen : buf.length = 3 * n) :
    bufferToPixelsRaw buf =
      (bufferToPixelsBounded (3 * n) buf).map liftTriplet := by
  induction n generalizing buf with
  | zero =>
      have : buf = [] := List.length_eq_zero.mp (by omega)
      subst this
      rfl
  | succ m ih =>
      match buf with
      | [] => simp at hlen
      | [_] => simp at hlen; omega
      | [_, _] => simp at hlen; omega
      | r :: g :: b :: rest =>
          have hr : rest.length = 3 * m := by
            simp at hlen
            omega
          have h0 : 3 * (m + 1) ≠ 0 := by omega
          have hstep : 3 * (m + 1) - 3 = 3 * m := by omega
          simp only [bufferToPixelsRaw, bufferToPixelsBounded, if_neg h0, hstep,
            List.map_cons, ih rest hr]
          rfl

namespace Debug

theorem gateInv_step (totalFrames fps : Nat) (s : DebugState)
    (ev : DebugEvent) (h : gateInv s) : gateInv (step totalFrames fps s ev) := by
  obtain ⟨h1, h2⟩ := h
  cases ev with
  | tick =>
      by_cases hg : s.processingActive ∨ 5 < s.consecutiveErrors
      · simpa [step, hg] using ⟨h1, h2⟩
      · have hb : s.processingActive = false := by
          cases hp : s.processingActive
          · rfl
          · exact absurd (Or.inl hp) hg
        have h0 : s.inFlight = 0 := h2 hb
        simp [step, hg, gateInv, h0]
  | settle r =>
      by_cases h0 : s.inFlight = 0
      · simpa [step, h0] using ⟨h1, h2⟩
      · cases r with
        | ok ps =>
            by_cases hp : 0 < ps.length <;> simp [step, h0, hp, gateInv] <;> omega
        | err =>
            by_cases he : 2 < s.consecutiveErrors + 1 <;>
              simp [step, h0, he, gateInv] <;> omega
  | cooldown => simpa [step, gateInv] using ⟨h1, h2⟩

theorem gateInv_run (totalFrames fps : Nat) (s : DebugState)
    (evs : List DebugEvent) (h : gateInv s) :
    gateInv (run totalFrames fps s evs) := by
  induction evs generalizing s with
  | nil => exact h
  | cons ev rest ih => exact ih _ (gateInv_step totalFrames fps s ev h)

theorem currentFrame_lt_step (totalFrames fps : Nat) (hT : 0 < totalFrames)
    (s : DebugState) (ev : DebugEvent) (h : s.currentFrame < totalFrames) :
    (step totalFrames fps s ev).currentFrame < totalFrames := by
  cases ev with
  | tick =>
      by_cases hg : s.processingActive ∨ 5 < s.consecutiveErrors <;>
        simp [step, hg, h]
  | settle r =>
      by_cases h0 : s.inFlight = 0
      · simpa [step, h0] using h
      · cases r with
        | ok ps =>
            by_cases hp : 0 < ps.length <;>
              simp [step, h0, hp, Nat.mod_lt _ hT]
        | err =>
            by_cases he : 2 < s.consecutiveErrors + 1 <;>
              simp [step, h0, he, h, Nat.mod_lt _ hT]
  | cooldown => simpa [step] using h

theorem currentFrame_lt_run (totalFrames fps : Nat) (hT : 0 < totalFrames)
    (s : DebugState) (evs : List DebugEvent) (h : s.currentFrame < totalFrames) :
    (run totalFrames fps s evs).currentFrame < totalFrames := by
  induction evs generalizing s with
  | nil => exact h
  | cons ev rest ih =>
      exact ih _ (currentFrame_lt_step totalFrames fps hT s ev h)

end Debug

/-- A slice of exactly `width*height*3` bytes converts, even through the
unchecked loop, to a complete frame: `width*height` triplets with every
component an actual byte of the slice. -/
theorem rawFrame_complete (w hgt : Nat) (slice : List Nat)
    (hlen : slice.length = w * hgt * 3) :
    completeFrame w hgt (bufferToPixelsRaw slice) := by
  have h3 : slice.length = 3 * (w * hgt) := by rw [hlen]; ring
  have hmap := bufferToPixelsRaw_exact (w * hgt) slice h3
  obtain ⟨hlen', -⟩ :=
    bufferToPixelsBounded_spec (3 * (w * hgt)) slice ⟨w * hgt, rfl⟩
  constructor
  · rw [hmap, List.length_map, hlen', h3, Nat.min_self,
      Nat.mul_div_cancel_left _ (by norm_num : 0 < 3)]
  · intro t ht
    rw [hmap] at ht
    obtain ⟨u, -, rfl⟩ := List.mem_map.mp ht
    exact ⟨rfl, rfl⟩

namespace Batch

theorem drainLoop_complete (w hgt count : Nat) (pending : List Nat)
    (frames : List (List (Nat × Option Nat × Option Nat)))
    (hf : ∀ f ∈ frames, completeFrame w hgt f) :
    ∀ f ∈ (drainLoop (w * hgt * 3) count pending frames).frames,
      completeFrame w hgt f := by
  rw [drainLoop]
  by_cases h : 0 < w * hgt * 3 ∧ w * hgt * 3 ≤ pending.length
  · have hslice : (pending.take (w * hgt * 3)).length = w * hgt * 3 := by
      rw [List.length_take]
      omega
    have hnew : ∀ f ∈ frames ++ [bufferToPixelsRaw (pending.take (w * hgt * 3))],
        completeFrame w hgt f := by
      intro f hfm
      rcases List.mem_append.mp hfm with hfm | hfm
      · exact hf f hfm
      · rw [List.mem_singleton.mp hfm]
        exact rawFrame_complete w hgt _ hslice
    rw [dif_pos h]
    by_cases hc :
        count ≤ (frames ++ [bufferToPixelsRaw (pending.take (w * hgt * 3))]).length
    · rw [if_pos hc]
      exact hnew
    · rw [if_neg hc]
      exact drainLoop_complete w hgt count (pending.drop (w * hgt * 3)) _ hnew
  · rw [dif_neg h]
    exact hf
  termination_by pending.length
  decreasing_by
    simp only [List.length_drop]
    omega

theorem extractFrames_complete (w hgt count : Nat) (chunks : List (List Nat)) :
    ∀ f ∈ extractFrames w hgt count chunks, completeFrame w hgt f := by
  unfold extractFrames
  suffices h : ∀ (cs : List (List Nat)) (acc : BatchAcc),
      (∀ f ∈ acc.frames, completeFrame w hgt f) →
      ∀ f ∈ (cs.foldl (onData (w * hgt * 3) count) acc).frames,
        completeFrame w hgt f by
    exact h chunks { pending := [], frames := [] } (by intro f hf; simp at hf)
  intro cs
  induction cs with
  | nil => intro acc hacc; exact hacc
  | cons c rest ih =>
      intro acc hacc
      exact ih _ (drainLoop_complete w hgt count (acc.pending ++ c) acc.frames hacc)

theorem cacheInsert_complete (w hgt cap k : Nat)
    (cache : List (Nat × List (Nat × Option Nat × Option Nat)))
    (v : List (Nat × Option Nat × Option Nat))
    (hc : ∀ kv ∈ cache, completeFrame w hgt kv.2)
    (hv : completeFrame w hgt v) :
    ∀ kv ∈ cacheInsert cap cache k v, completeFrame w hgt kv.2 := by
  intro kv hm
  have hrep : ∀ kv' ∈ cacheSet cache k v, completeFrame w hgt kv'.2 := by
    intro kv' hm'
    unfold cacheSet at hm'
    by_cases ha : cache.any (fun e => e.1 = k)
    · rw [if_pos ha] at hm'
      obtain ⟨e, he, rfl⟩ := List.mem_map.mp hm'
      by_cases hek : e.1 = k
      · simpa [hek] using hv
      · simpa [hek] using hc e he
    · rw [if_neg ha] at hm'
      rcases List.mem_append.mp hm' with hm' | hm'
      · exact hc _ hm'
      · rw [List.mem_singleton.mp hm']
        exact hv
  unfold cacheInsert at hm
  split at hm
  · exact hrep kv (List.mem_of_mem_drop hm)
  · exact hrep kv hm

theorem insertFramesFrom_complete (w hgt cap : Nat) :
    ∀ (fs : List (List (Nat × Option Nat × Option Nat)))
      (cache : List (Nat × List (Nat × Option Nat × Option Nat))) (start : Nat),
      (∀ kv ∈ cache, completeFrame w hgt kv.2) →
      (∀ f ∈ fs, completeFrame w hgt f) →
      ∀ kv ∈ insertFramesFrom cap cache start fs, completeFrame w hgt kv.2 := by
  intro fs
  induction fs with
  | nil => intro cache start hc _; exact hc
  | cons f rest ih =>
      intro cache start hc hfs
      exact ih _ _
        (cacheInsert_complete w hgt cap start cache f hc
          (hfs f (List.mem_cons_self f rest)))
        (fun g hg => hfs g (List.mem_cons_of_mem f hg))

end Batch

/--
Claim C1 counterexample: in the simple variant (server.js lines 100-137)
the busy flag does not stay set for the whole life of an attempt — the
ffmpeg error handler and the stream end handler of the same attempt each
clear it, with no completion guard.  In the interleaving below, attempt 0
errors (releasing the gate), a tick starts attempt 1, the late stream end
of attempt 0 releases the gate again, and a further tick starts attempt 2
while attempt 1 is still in flight: two decode invocations overlap.
-/
theorem c1_counterexample :
    Simple.inFlight (Simple.run 600 60 Simple.init
      [SimpleEvent.tick, SimpleEvent.ffmpegErrAt 0, SimpleEvent.tick,
       SimpleEvent.streamEndAt 0 [], SimpleEvent.tick]) = 2 ∧
    ¬ Simple.inFlight (Simple.run 600 60 Simple.init
      [SimpleEvent.tick, SimpleEvent.ffmpegErrAt 0, SimpleEvent.tick,
       SimpleEvent.streamEndAt 0 [], SimpleEvent.tick]) ≤ 1 := by
  decide

/--
Claim C1 (amended): in the debug-mode controller, whose decode attempts
settle exactly once (the hasCompleted guard makes stale completions
no-ops), the mutual-exclusion gate works as claimed: along every
interleaving of ticks, settlements and cooldowns from startup, at most
one decode is in flight (and none while the gate is free), and a tick
that fires while the busy flag is set is a no-op that changes nothing
and queues nothing.  In the simple variant the flag can be cleared twice
for one attempt and overlap is reachable (see the counterexample).
-/
theorem c1_gate :
    (∀ (totalFrames fps : Nat) (evs : List DebugEvent),
        Debug.gateInv (Debug.run totalFrames fps Debug.init evs)) ∧
    (∀ (totalFrames fps : Nat) (s : DebugState), s.processingActive = true →
        Debug.step totalFrames fps s DebugEvent.tick = s) := by
  constructor
  · intro totalFrames fps evs
    refine Debug.gateInv_run totalFrames fps Debug.init evs ?_
    exact ⟨by simp [Debug.init], fun _ => rfl⟩
  · intro totalFrames fps s hb
    simp [Debug.step, hb]

/-- Witness for C1: a concrete run keeps the gate invariant, and a tick
in a concrete busy state is a no-op. -/
theorem c1_witness :
    Debug.gateInv (Debug.run 360 6 Debug.init
      [DebugEvent.tick, DebugEvent.tick, DebugEvent.settle DecodeResult.err,
       DebugEvent.tick]) ∧
    Debug.step 360 6
      { currentFrame := 0, consecutiveErrors := 0, lastPixels := [],
        processingActive := true, inFlight := 1 } DebugEvent.tick =
      { currentFrame := 0, consecutiveErrors := 0, lastPixels := [],
        processingActive := true, inFlight := 1 } :=
  ⟨c1_gate.1 360 6 _,
   c1_gate.2 360 6
     { currentFrame := 0, consecutiveErrors := 0, lastPixels := [],
       processingActive := true, inFlight := 1 } rfl⟩

/--
Claim C2 counterexample: the claim asserts that
`totalFrames = floor(duration * targetFPS)` is clamped to a minimum of 1
and hence positive; no variant clamps it.  For a source of duration 1/10 s
at 6 fps, `Math.floor(videoDuration * FPS)` is 0, so totalFrames is not a
positive integer and the invariant `0 <= index < totalFrames` already
fails at the initial cursor 0 (in JS the advancement `(i + 1) % 0` is NaN).
-/
theorem c2_counterexample :
    totalFramesOf (1 / 10) 6 = 0 ∧ ¬ (0 : ℤ) < totalFramesOf (1 / 10) 6 := by
  have h : totalFramesOf (1 / 10) 6 = 0 := by
    have hq : ((1 : ℚ) / 10) * (6 : ℕ) = 3 / 5 := by norm_num
    rw [totalFramesOf, hq]
    rw [Int.floor_eq_zero_iff]
    constructor <;> norm_num
  exact ⟨h, by rw [h]; omega⟩

/--
Claim C2 (amended): whenever totalFrames is at least 1, the debug
controller keeps the frame cursor inside `[0, totalFrames)` from startup
across every interleaving of ticks, settlements and cooldowns: the cursor
starts at 0 and each advancement — +1 on a success or an empty resolution,
+targetFPS*2 on a rejection above the low streak threshold, no movement
otherwise — is taken modulo totalFrames.  The code, however, computes
`totalFrames = Math.floor(videoDuration * FPS)` with no minimum-1 clamp,
so the required positivity is a hypothesis here, not a code guarantee
(see the counterexample).
-/
theorem c2_cursor_invariant (totalFrames fps : Nat) (hT : 0 < totalFrames)
    (evs : List DebugEvent) :
    (Debug.run totalFrames fps Debug.init evs).currentFrame < totalFrames :=
  Debug.currentFrame_lt_run totalFrames fps hT Debug.init evs
    (by simpa [Debug.init] using hT)

/-- Witness for C2: with 360 total frames a concrete mixed run of
successes, failures and skips stays below 360. -/
theorem c2_witness :
    0 < 360 ∧
    (Debug.run 360 6 Debug.init
      [DebugEvent.tick, DebugEvent.settle DecodeResult.err,
       DebugEvent.tick, DebugEvent.settle (DecodeResult.ok [(1, 2, 3)]),
       DebugEvent.tick, DebugEvent.settle DecodeResult.err,
       DebugEvent.tick, DebugEvent.settle DecodeResult.err,
       DebugEvent.tick, DebugEvent.settle DecodeResult.err,
       DebugEvent.cooldown]).currentFrame < 360 :=
  ⟨by decide, c2_cursor_invariant 360 6 (by decide) _⟩

/--
Claim C3 counterexample: the quality-variant controller cited by the
claim (server.js lines 704-745) does not reset the error streak to 0 on a
successful decode — it lowers it by 1 (`Math.max(0, consecutiveErrors - 1)`).
From streak 5, a successful decode leaves streak 4, not 0.
-/
theorem c3_counterexample :
    (Quality.processNextFrame 360 6 (DecodeResult.ok [(1, 2, 3)])
      { currentFrame := 0, consecutiveErrors := 5, lastPixels := [],
        processingActive := false }).consecutiveErrors = 4 ∧
    ¬ (Quality.processNextFrame 360 6 (DecodeResult.ok [(1, 2, 3)])
      { currentFrame := 0, consecutiveErrors := 5, lastPixels := [],
        processingActive := false }).consecutiveErrors = 0 := by
  decide

/--
Claim C3 (amended): in the debug-mode controller, every successful decode
resets the error streak to exactly 0 and advances the cursor by exactly 1
modulo totalFrames, so N consecutive successful decodes from a ready
state at cursor i end at cursor `(i + N) % totalFrames` with streak 0 —
wrapping from totalFrames-1 to 0.  The quality-variant controller cited
by the same claim instead lowers the streak by 1 on success (see the
counterexample); its cursor advancement is the same.
-/
theorem c3_success_resets (totalFrames fps : Nat) (s : DebugState)
    (pss : List (List (Nat × Nat × Nat)))
    (hb : s.processingActive = false) (hf : s.inFlight = 0)
    (he : s.consecutiveErrors ≤ 5) (hne : pss ≠ [])
    (hps : ∀ ps ∈ pss, ps ≠ []) :
    (Debug.run totalFrames fps s (Debug.successEvents pss)).currentFrame
        = (s.currentFrame + pss.length) % totalFrames ∧
    (Debug.run totalFrames fps s (Debug.successEvents pss)).consecutiveErrors
        = 0 := by
  have aux : ∀ (l : List (List (Nat × Nat × Nat))) (t : DebugState),
      t.processingActive = false → t.inFlight = 0 → t.consecutiveErrors ≤ 5 →
      (∀ ps ∈ l, ps ≠ []) → l ≠ [] →
      (Debug.run totalFrames fps t (Debug.successEvents l)).currentFrame
          = (t.currentFrame + l.length) % totalFrames ∧
      (Debug.run totalFrames fps t (Debug.successEvents l)).consecutiveErrors
          = 0 ∧
      (Debug.run totalFrames fps t (Debug.successEvents l)).processingActive
          = false ∧
      (Debug.run totalFrames fps t (Debug.successEvents l)).inFlight = 0 := by
    intro l
    induction l with
    | nil => intro t _ _ _ _ hl; exact absurd rfl hl
    | cons ps rest ih =>
        intro t htb htf hte hl _
        have hguard : ¬ (t.processingActive ∨ 5 < t.consecutiveErrors) := by
          rw [htb]
          simp
          omega
        have hps0 : 0 < ps.length :=
          List.length_pos.mpr (hl ps (List.mem_cons_self ps rest))
        have e1 : Debug.step totalFrames fps t DebugEvent.tick
            = { t with processingActive := true, inFlight := t.inFlight + 1 } := by
          rw [Debug.step, if_neg hguard]
        have e2 : Debug.step totalFrames fps
            { t with processingActive := true, inFlight := t.inFlight + 1 }
            (DebugEvent.settle (DecodeResult.ok ps))
            = { currentFrame := (t.currentFrame + 1) % totalFrames,
                consecutiveErrors := 0, lastPixels := ps,
                processingActive := false, inFlight := t.inFlight + 1 - 1 } := by
          rw [Debug.step]
          simp [hps0]
        have hrun : Debug.run totalFrames fps t
            (Debug.successEvents (ps :: rest))
            = Debug.run totalFrames fps
              { currentFrame := (t.currentFrame + 1) % totalFrames,
                consecutiveErrors := 0, lastPixels := ps,
                processingActive := false, inFlight := t.inFlight + 1 - 1 }
              (Debug.successEvents rest) := by
          rw [Debug.successEvents, Debug.run, List.foldl_cons, List.foldl_cons,
            e1, e2]
          rfl
        rw [hrun]
        cases rest with
        | nil =>
            refine ⟨?_, rfl, rfl, ?_⟩
            · simp [Debug.successEvents, Debug.run]
            · simp [Debug.successEvents, Debug.run]
              omega
        | cons q qs =>
            have hrest : ∀ p ∈ q :: qs, p ≠ [] := by
              intro p hp
              exact hl p (List.mem_cons_of_mem ps hp)
            obtain ⟨ha, hb2, hc2, hd2⟩ := ih
              { currentFrame := (t.currentFrame + 1) % totalFrames,
                consecutiveErrors := 0, lastPixels := ps,
                processingActive := false, inFlight := t.inFlight + 1 - 1 }
              rfl (by simp [htf]) (by simp) hrest (by simp)
            refine ⟨?_, hb2, hc2, hd2⟩
            rw [ha]
            simp only [List.length_cons, Nat.mod_add_mod]
            congr 1
            omega
  obtain ⟨h1, h2, -, -⟩ := aux pss s hb hf he hps hne
  exact ⟨h1, h2⟩

/-- Witness for C3 at the spec wrap-around scenario: totalFrames 10,
cursor 9, one successful decode wraps the cursor to 0 and the streak
(previously 3) resets to 0. -/
theorem c3_witness :
    (Debug.run 10 6
      { currentFrame := 9, consecutiveErrors := 3, lastPixels := [],
        processingActive := false, inFlight := 0 }
      (Debug.successEvents [[(1, 1, 1)]])).currentFrame = (9 + 1) % 10 ∧
    (Debug.run 10 6
      { currentFrame := 9, consecutiveErrors := 3, lastPixels := [],
        processingActive := false, inFlight := 0 }
      (Debug.successEvents [[(1, 1, 1)]])).consecutiveErrors = 0 :=
  c3_success_resets 10 6
    { currentFrame := 9, consecutiveErrors := 3, lastPixels := [],
      processingActive := false, inFlight := 0 }
    [[(1, 1, 1)]] rfl rfl (by decide) (by decide) (by decide)

/--
Claim C4 (confirmed, modelled on the debug controller): once the error
streak exceeds the high threshold 5 (and the prior attempt has settled),
the controller is paused — along any sequence of ticks and stale
settlements with no cooldown event, the state never changes and zero
decode invocations are issued; the cooldown timer body (scheduled for
10 s by the paused tick) resets the streak to exactly 0, after which a
tick issues a decode again.  The quality variant behaves the same with
threshold 8, a 5 s window and a partial decrement of 3.
-/
theorem c4_paused (totalFrames fps : Nat) (s : DebugState)
    (he : 5 < s.consecutiveErrors) (hf : s.inFlight = 0) :
    (∀ evs : List DebugEvent, DebugEvent.cooldown ∉ evs →
        Debug.run totalFrames fps s evs = s ∧
        Debug.startCount totalFrames fps s evs = 0) ∧
    (Debug.step totalFrames fps s DebugEvent.cooldown).consecutiveErrors = 0 ∧
    (s.processingActive = false →
        Debug.tickStarts (Debug.step totalFrames fps s DebugEvent.cooldown)
          = true) := by
  have hstep : ∀ ev : DebugEvent, ev ≠ DebugEvent.cooldown →
      Debug.step totalFrames fps s ev = s := by
    intro ev hev
    cases ev with
    | tick =>
        simp only [Debug.step]
        rw [if_pos (Or.inr he)]
    | settle r =>
        cases r <;> simp only [Debug.step] <;> rw [if_pos hf]
    | cooldown => exact absurd rfl hev
  have hts : Debug.tickStarts s = false := by
    rw [Debug.tickStarts]
    simp
    omega
  refine ⟨?_, ?_, ?_⟩
  · intro evs
    induction evs with
    | nil => intro _; exact ⟨rfl, rfl⟩
    | cons ev rest ih =>
        intro hmem
        have hev : ev ≠ DebugEvent.cooldown := fun hc => hmem (hc ▸ List.mem_cons_self ev rest)
        have hrest : DebugEvent.cooldown ∉ rest := fun hr => hmem (List.mem_cons_of_mem ev hr)
        obtain ⟨ih1, ih2⟩ := ih hrest
        constructor
        · rw [Debug.run, List.foldl_cons, hstep ev hev]
          exact ih1
        · cases ev with
          | tick =>
              rw [Debug.startCount, hts, hstep DebugEvent.tick hev]
              simpa using ih2
          | settle r =>
              have hsc : Debug.startCount totalFrames fps s
                  (DebugEvent.settle r :: rest)
                  = Debug.startCount totalFrames fps
                      (Debug.step totalFrames fps s (DebugEvent.settle r))
                      rest := rfl
              rw [hsc, hstep (DebugEvent.settle r) hev]
              exact ih2
          | cooldown => exact absurd rfl hev
  · rw [Debug.step]
  · intro hb
    rw [Debug.step, Debug.tickStarts]
    simp [hb]

/-- Witness for C4: a concrete paused state (streak 6) ignores a run of
ticks and a stale settlement without issuing a decode, and the cooldown
resets the streak and reenables the gate. -/
theorem c4_witness :
    (Debug.run 360 6
        { currentFrame := 3, consecutiveErrors := 6, lastPixels := [],
          processingActive := false, inFlight := 0 }
        [DebugEvent.tick, DebugEvent.tick, DebugEvent.settle DecodeResult.err]
      = { currentFrame := 3, consecutiveErrors := 6, lastPixels := [],
          processingActive := false, inFlight := 0 } ∧
      Debug.startCount 360 6
        { currentFrame := 3, consecutiveErrors := 6, lastPixels := [],
          processingActive := false, inFlight := 0 }
        [DebugEvent.tick, DebugEvent.tick, DebugEvent.settle DecodeResult.err]
      = 0) ∧
    (Debug.step 360 6
        { currentFrame := 3, consecutiveErrors := 6, lastPixels := [],
          processingActive := false, inFlight := 0 }
        DebugEvent.cooldown).consecutiveErrors = 0 ∧
    Debug.tickStarts (Debug.step 360 6
        { currentFrame := 3, consecutiveErrors := 6, lastPixels := [],
          processingActive := false, inFlight := 0 }
        DebugEvent.cooldown) = true := by
  have h := c4_paused 360 6
    { currentFrame := 3, consecutiveErrors := 6, lastPixels := [],
      processingActive := false, inFlight := 0 } (by decide) rfl
  exact ⟨h.1 _ (by decide), h.2.1, h.2.2 rfl⟩

/--
Claim C5 counterexample: a size-mismatched decode output is listed by the
claim as a failing attempt that must leave the published frame unchanged,
but the debug controller treats it as a success: a 6-byte buffer (against
the expected 192*144*3 bytes) settles as a success with the truncated
2-triplet conversion, which is published and replaces the previous frame.
-/
theorem c5_counterexample :
    ([1, 2, 3, 4, 5, 6] : List Nat).length ≠ 192 * 144 * 3 ∧
    (Debug.step 360 6
        { currentFrame := 0, consecutiveErrors := 0, lastPixels := [(9, 9, 9)],
          processingActive := true, inFlight := 1 }
        (DebugEvent.settle
          (Debug.processFrameOutcome 192 144
            (SettleCause.ended [1, 2, 3, 4, 5, 6])).toResult)).lastPixels
      = [(1, 2, 3), (4, 5, 6)] ∧
    ([(1, 2, 3), (4, 5, 6)] : List (Nat × Nat × Nat)) ≠ [(9, 9, 9)] := by
  refine ⟨by decide, ?_, by decide⟩
  have houtcome : Debug.processFrameOutcome 192 144
      (SettleCause.ended [1, 2, 3, 4, 5, 6])
      = DecodeOutcome.success [(1, 2, 3), (4, 5, 6)] := by decide
  rw [houtcome]
  decide

/--
Claim C5 (amended): every decode attempt that the debug controller sees
as a failure — a rejection (timeout, empty output, stream error,
subprocess error) or a resolution with no pixels — leaves the published
frame exactly as it was, so readers keep observing the last successfully
decoded frame (or the startup fallback pattern).  However, a
size-mismatched buffer that still holds at least one whole triplet is
not a failure for this controller: it settles as a success and its
truncated conversion is published (see the counterexample).
-/
theorem c5_failure_keeps_frame (totalFrames fps : Nat) (s : DebugState)
    (o : DecodeOutcome)
    (ho : o = DecodeOutcome.emptyOutput ∨ o = DecodeOutcome.timeout ∨
          o = DecodeOutcome.subprocessFailure ∨ o = DecodeOutcome.streamFailure ∨
          o = DecodeOutcome.success []) :
    (Debug.step totalFrames fps s (DebugEvent.settle o.toResult)).lastPixels
      = s.lastPixels := by
  have herr : ∀ t : DebugState,
      (Debug.step totalFrames fps t (DebugEvent.settle DecodeResult.err)).lastPixels
        = t.lastPixels := by
    intro t
    simp only [Debug.step]
    by_cases h0 : t.inFlight = 0 <;>
      by_cases h2 : 2 < t.consecutiveErrors + 1 <;> simp [h0, h2]
  rcases ho with rfl | rfl | rfl | rfl | rfl
  · exact herr s
  · exact herr s
  · exact herr s
  · exact herr s
  · simp only [DecodeOutcome.toResult, Debug.step]
    by_cases h0 : s.inFlight = 0 <;> simp [h0]

/-- Witness for C5: a timeout settlement in a concrete state keeps the
previously published frame. -/
theorem c5_witness :
    (DecodeOutcome.timeout = DecodeOutcome.emptyOutput ∨
      DecodeOutcome.timeout = DecodeOutcome.timeout ∨
      DecodeOutcome.timeout = DecodeOutcome.subprocessFailure ∨
      DecodeOutcome.timeout = DecodeOutcome.streamFailure ∨
      DecodeOutcome.timeout = DecodeOutcome.success []) ∧
    (Debug.step 360 6
        { currentFrame := 7, consecutiveErrors := 1, lastPixels := [(9, 9, 9)],
          processingActive := true, inFlight := 1 }
        (DebugEvent.settle DecodeOutcome.timeout.toResult)).lastPixels
      = [(9, 9, 9)] :=
  ⟨Or.inr (Or.inl rfl),
   c5_failure_keeps_frame 360 6
     { currentFrame := 7, consecutiveErrors := 1, lastPixels := [(9, 9, 9)],
       processingActive := true, inFlight := 1 }
     DecodeOutcome.timeout (Or.inr (Or.inl rfl))⟩

/--
Claim C6 (confirmed): for every byte buffer of exactly `width*height*3`
bytes, the conversion yields exactly `width*height` RGB triplets whose
bytes match the input byte-for-byte in row-major order — the flattened
triplet list is the buffer itself, and on such buffers the unchecked
simple-variant loop produces those same triplets; in particular the
24-byte scenario buffer for width 4, height 2 converts to exactly the
eight listed triplets.
-/
theorem c6_roundtrip :
    (∀ (w hgt : Nat) (buf : List Nat), buf.length = w * hgt * 3 →
        (bufferToPixelsBounded (w * hgt * 3) buf).length = w * hgt ∧
        tripletFlatten (bufferToPixelsBounded (w * hgt * 3) buf) = buf ∧
        bufferToPixelsRaw buf =
          (bufferToPixelsBounded (w * hgt * 3) buf).map liftTriplet) ∧
    bufferToPixelsBounded 24 scenarioBuf =
      [(0, 0, 0), (255, 0, 0), (0, 255, 0), (0, 0, 255),
       (255, 255, 255), (128, 128, 128), (10, 20, 30), (40, 50, 60)] := by
  constructor
  · intro w hgt buf hlen
    have hE : 3 ∣ w * hgt * 3 := ⟨w * hgt, by ring⟩
    obtain ⟨h1, h2⟩ := bufferToPixelsBounded_spec (w * hgt * 3) buf hE
    have hcomm : 3 * (w * hgt) = w * hgt * 3 := by ring
    refine ⟨?_, ?_, ?_⟩
    · rw [h1, hlen, Nat.min_self, Nat.mul_div_cancel _ (by norm_num : 0 < 3)]
    · rw [h2, hlen, Nat.min_self, Nat.mul_div_cancel _ (by norm_num : 0 < 3),
        hcomm, ← hlen, List.take_length]
    · have h3 : buf.length = 3 * (w * hgt) := by rw [hlen]; ring
      have := bufferToPixelsRaw_exact (w * hgt) buf h3
      rwa [hcomm] at this
  · decide

/-- Witness for C6 at the spec scenario: width 4, height 2, the 24-byte
buffer round-trips. -/
theorem c6_witness :
    scenarioBuf.length = 4 * 2 * 3 ∧
    ((bufferToPixelsBounded (4 * 2 * 3) scenarioBuf).length = 4 * 2 ∧
      tripletFlatten (bufferToPixelsBounded (4 * 2 * 3) scenarioBuf) = scenarioBuf ∧
      bufferToPixelsRaw scenarioBuf =
        (bufferToPixelsBounded (4 * 2 * 3) scenarioBuf).map liftTriplet) :=
  ⟨by decide, c6_roundtrip.1 4 2 scenarioBuf (by decide)⟩

/--
Claim C7 counterexample: in the simple variant cited by the claim
(server.js lines 110-122) there is no empty-buffer check: a decode whose
stream ends with 0 accumulated bytes is converted to an empty pixel list
and published, so readers do observe a zero-pixel frame in place of the
previous frame — the zero-byte buffer is not classified as a failure
there.
-/
theorem c7_counterexample :
    (Simple.run 600 60
        { currentFrame := 0, lastPixels := [(7, some 7, some 7)],
          isProcessing := false, attempts := [] }
        [SimpleEvent.tick, SimpleEvent.streamEndAt 0 []]).lastPixels = [] ∧
    (Simple.run 600 60
        { currentFrame := 0, lastPixels := [(7, some 7, some 7)],
          isProcessing := false, attempts := [] }
        [SimpleEvent.tick, SimpleEvent.streamEndAt 0 []]).lastPixels
      ≠ [(7, some 7, some 7)] := by
  decide

/--
Claim C7 (amended): in the debug controller, a decode attempt whose output
buffer has size 0 settles as the failure outcome EmptyOutput (a rejection,
never a crash — the model is a total function), the published frame is
left unchanged (it is not replaced by a zero-pixel frame), and the
controller keeps running: the settlement releases the gate and, while the
streak stays at or below the threshold, the next tick issues a decode
again.  The simple variant cited by the claim instead publishes the empty
conversion (see the counterexample).
-/
theorem c7_empty_output (totalFrames fps w hgt : Nat) :
    Debug.processFrameOutcome w hgt (SettleCause.ended [])
      = DecodeOutcome.emptyOutput ∧
    (∀ s : DebugState,
      (Debug.step totalFrames fps s
          (DebugEvent.settle DecodeOutcome.emptyOutput.toResult)).lastPixels
        = s.lastPixels) ∧
    (∀ s : DebugState, s.inFlight = 1 → s.consecutiveErrors ≤ 4 →
      (Debug.step totalFrames fps s
          (DebugEvent.settle DecodeOutcome.emptyOutput.toResult)).processingActive
        = false ∧
      Debug.tickStarts (Debug.step totalFrames fps s
          (DebugEvent.settle DecodeOutcome.emptyOutput.toResult)) = true) := by
  refine ⟨rfl, ?_, ?_⟩
  · intro s
    simp only [DecodeOutcome.toResult, Debug.step]
    by_cases h0 : s.inFlight = 0 <;>
      by_cases h2 : 2 < s.consecutiveErrors + 1 <;> simp [h0, h2]
  · intro s h1 he
    simp only [DecodeOutcome.toResult, Debug.step]
    rw [if_neg (by omega)]
    by_cases h2 : 2 < s.consecutiveErrors + 1 <;>
      simp [h2, Debug.tickStarts] <;> omega

/-- Witness for C7: an empty-buffer settlement in a concrete mid-decode
state keeps the frame, releases the gate, and the controller can decode
again. -/
theorem c7_witness :
    Debug.processFrameOutcome 192 144 (SettleCause.ended [])
      = DecodeOutcome.emptyOutput ∧
    (Debug.step 360 6
        { currentFrame := 2, consecutiveErrors := 1, lastPixels := [(5, 5, 5)],
          processingActive := true, inFlight := 1 }
        (DebugEvent.settle DecodeOutcome.emptyOutput.toResult)).lastPixels
      = [(5, 5, 5)] ∧
    ((Debug.step 360 6
        { currentFrame := 2, consecutiveErrors := 1, lastPixels := [(5, 5, 5)],
          processingActive := true, inFlight := 1 }
        (DebugEvent.settle DecodeOutcome.emptyOutput.toResult)).processingActive
      = false ∧
      Debug.tickStarts (Debug.step 360 6
        { currentFrame := 2, consecutiveErrors := 1, lastPixels := [(5, 5, 5)],
          processingActive := true, inFlight := 1 }
        (DebugEvent.settle DecodeOutcome.emptyOutput.toResult)) = true) :=
  ⟨(c7_empty_output 360 6 192 144).1,
   (c7_empty_output 360 6 192 144).2.1 _,
   (c7_empty_output 360 6 192 144).2.2 _ rfl (by decide)⟩

/--
Claim C8 counterexample: the simple-variant conversion loop (server.js
lines 115-118), cited by the claim, does not satisfy the claimed safety
property for mismatched buffers — on a 4-byte buffer it emits a second
triplet `(4, undefined, undefined)` whose components are reads past the
end of the buffer, contradicting that the conversion never reads past the
buffer end and never emits a triplet with missing components.
-/
theorem c8_counterexample :
    bufferToPixelsRaw [1, 2, 3, 4] = [(1, some 2, some 3), (4, none, none)] ∧
    (4, (none : Option Nat), (none : Option Nat)) ∈ bufferToPixelsRaw [1, 2, 3, 4] := by
  decide

/--
Claim C8 (amended): for the bounds-checked conversion loop of the debug
and quality variants, a buffer whose length differs from
`width*height*3` (the code logs this as a size mismatch and still
converts) is truncated best-effort: the loop emits exactly
`min (length, expected) / 3` complete triplets — the largest whole number
of pixels that fits within `min (length, expected)` — and the emitted
bytes are exactly the corresponding prefix of the buffer, so every
component is an actual input byte and nothing is read past the buffer
end.  The simple-variant loop cited by the claim lacks the bounds check
and emits undefined components (see the counterexample).
-/
theorem c8_truncation (w hgt : Nat) (buf : List Nat)
    (hmismatch : buf.length ≠ w * hgt * 3) :
    (bufferToPixelsBounded (w * hgt * 3) buf).length
        = min buf.length (w * hgt * 3) / 3 ∧
    tripletFlatten (bufferToPixelsBounded (w * hgt * 3) buf)
        = buf.take (3 * (min buf.length (w * hgt * 3) / 3)) := by
  have := hmismatch
  exact bufferToPixelsBounded_spec (w * hgt * 3) buf ⟨w * hgt, by ring⟩

/-- Witness for C8 at the spec boundary scenario: a buffer of size
`expected - 1` (23 bytes for width 4, height 2) truncates to 7 whole
triplets made of the first 21 input bytes. -/
theorem c8_witness :
    (scenarioBuf.take 23).length ≠ 4 * 2 * 3 ∧
    ((bufferToPixelsBounded (4 * 2 * 3) (scenarioBuf.take 23)).length
        = min (scenarioBuf.take 23).length (4 * 2 * 3) / 3 ∧
      tripletFlatten (bufferToPixelsBounded (4 * 2 * 3) (scenarioBuf.take 23))
        = (scenarioBuf.take 23).take
            (3 * (min (scenarioBuf.take 23).length (4 * 2 * 3) / 3))) :=
  ⟨by decide, c8_truncation 4 2 (scenarioBuf.take 23) (by decide)⟩

/--
Claim C9 (confirmed): if probing the video source fails or times out —
ffprobe error, guard timer firing, unreachable URL, bad status or a
non-video content type — the prober resolves with the default duration of
60 seconds instead of propagating the error (the functions below are
total: every outcome yields a duration, so startup proceeds without
throwing), and the resulting total frame count is
`floor(60 * targetFPS) = 60 * targetFPS`.
-/
theorem c9_probe_default :
    getVideoDuration ProbeOutcome.failed = 60 ∧
    getVideoDuration ProbeOutcome.timedOut = 60 ∧
    (∀ p : ProbeOutcome, analyzeVideoDuration UrlCheck.badStatusOrType p = 60) ∧
    (∀ p : ProbeOutcome, analyzeVideoDuration UrlCheck.requestFailed p = 60) ∧
    (∀ p : ProbeOutcome, analyzeVideoDuration UrlCheck.requestTimedOut p = 60) ∧
    (∀ p : ProbeOutcome, p = ProbeOutcome.failed ∨ p = ProbeOutcome.timedOut →
        analyzeVideoDuration UrlCheck.okVideo p = 60) ∧
    (∀ fps : ℕ, totalFramesOf 60 fps = 60 * fps) := by
  refine ⟨rfl, rfl, ?_, ?_, ?_, ?_, ?_⟩
  · intro p; cases p <;> rfl
  · intro p; cases p <;> rfl
  · intro p; cases p <;> rfl
  · rintro p (rfl | rfl) <;> rfl
  · intro fps
    have hcast : ((60 : ℚ) * (fps : ℚ)) = (((60 * fps : ℕ) : ℤ) : ℚ) := by
      push_cast
      ring
    rw [totalFramesOf, hcast, Int.floor_intCast]
    push_cast
    ring

/-- Witness for C9: at the failed-probe outcome the duration defaults to
60 and, at the target rate 6, the total frame count is 360. -/
theorem c9_witness :
    getVideoDuration ProbeOutcome.failed = 60 ∧ totalFramesOf 60 6 = 60 * 6 :=
  ⟨c9_probe_default.1, c9_probe_default.2.2.2.2.2.2 6⟩

/--
Claim C10 (confirmed): every frame stored into the bounded frame cache by
the batch processor is complete — the extract loop only emits a pixel
list once a full `width*height*3`-byte slice has accumulated, each cached
entry holds exactly `width*height` triplets with every component an
actual byte (never a past-the-end undefined read), and trailing partial
bytes stay in the pending buffer and are discarded rather than cached.
-/
theorem c10_cache_complete (w hgt cap count start : Nat)
    (chunks : List (List Nat))
    (cache : List (Nat × List (Nat × Option Nat × Option Nat)))
    (hc : ∀ kv ∈ cache, completeFrame w hgt kv.2) :
    ∀ kv ∈ Batch.processFrameBatch w hgt cap count start chunks cache,
      completeFrame w hgt kv.2 :=
  Batch.insertFramesFrom_complete w hgt cap
    (Batch.extractFrames w hgt count chunks) cache start hc
    (Batch.extractFrames_complete w hgt count chunks)

/-- Witness for C10: one chunk of 4 bytes at width 1, height 1 caches a
single complete frame and discards the trailing byte. -/
theorem c10_witness :
    (∀ kv ∈ ([] : List (Nat × List (Nat × Option Nat × Option Nat))),
        completeFrame 1 1 kv.2) ∧
    (∀ kv ∈ Batch.processFrameBatch 1 1 100 5 0 [[1, 2, 3, 4]] [],
        completeFrame 1 1 kv.2) :=
  ⟨by simp, c10_cache_complete 1 1 100 5 0 [[1, 2, 3, 4]] [] (by simp)⟩
